import Mathlib

/-!
Verification of the finnews ticker-sync pipeline.

Shallow embedding of the sync pipeline of the `finnews` repository:

* `apps/api/ticker_repository.py` — dimension resolution (sector / industry /
  exchange), the per-record ticker upsert, the price parsers, and the read
  accessors;
* `apps/api/services/ticker_sync_service.py` — the `SyncStatus` run state and
  the `TickerSyncService` orchestrator.

The relational store is modelled as an in-memory `DB` value; each SQL
statement of the source becomes a pure operation on that value.  A
transaction is modelled exactly as the source uses it: all statements of
`insert_ticker` act on a pending copy of the store, `commit` publishes the
copy and `rollback` discards it.  Failures of individual statements (network
or storage errors) are injected through explicit `Faults` / fetch oracles,
since the Python code can see them only as exceptions.

Python `datetime.now()` is modelled by a monotone tick counter threaded
through the service state.  Python `float` values are modelled as `ℚ`
(the decimal forms the dataset uses; `inf`/`nan`/exponent forms are out of
the modelled scope).
-/

namespace FinNews

/-! ## Python string helpers -/

/-- ASCII upper-casing of one character, as Python `str.upper` acts on the
ASCII range used by exchange codes and ticker symbols. -/
def upChar (c : Char) : Char :=
  if 'a' ≤ c ∧ c ≤ 'z' then Char.ofNat (c.toNat - 32) else c

/-- Python `s.upper()` on the ASCII strings this pipeline handles. -/
def pyUpper (s : String) : String := ⟨s.data.map upChar⟩

/-- Python `s.replace(c, "")` for a one-character pattern: removes every
occurrence of `c`. -/
def stripChar (c : Char) (s : String) : String := ⟨s.data.filter (fun d => d ≠ c)⟩

/-- Python whitespace as stripped by `str.strip()` (ASCII part). -/
def isPySpace (c : Char) : Bool :=
  c = ' ' || c = '\t' || c = '\n' || c = '\x0d' || c = '\x0b' || c = '\x0c'

/-- Python `s.strip()`. -/
def pyStrip (s : String) : String :=
  ⟨((s.data.dropWhile isPySpace).reverse.dropWhile isPySpace).reverse⟩

/-- The blank test `not s or s.strip() == ""` used by the dimension
resolvers (for an actual string argument `not s` is `s == ""`). -/
def isBlank (s : String) : Bool := s == "" || pyStrip s == ""

/-- Numeric value of a digit list (most significant first). -/
def digitsVal (l : List Char) : Nat := l.foldl (fun a c => 10 * a + (c.toNat - 48)) 0

/-- All characters are ASCII digits. -/
def allDigits (l : List Char) : Bool := l.all fun c => '0' ≤ c && c ≤ '9'

/-- Unsigned decimal literal accepted by Python `float`: `digits`,
`digits.digits`, `digits.` or `.digits`. -/
def parseUnsignedRat (l : List Char) : Option ℚ :=
  match l.span (fun c => '0' ≤ c && c ≤ '9') with
  | (intPart, []) =>
      if intPart = [] then none else some (digitsVal intPart : ℚ)
  | (intPart, '.' :: frac) =>
      if allDigits frac && (intPart ≠ [] || frac ≠ []) then
        some ((digitsVal intPart : ℚ) + (digitsVal frac : ℚ) / (10 ^ frac.length))
      else none
  | _ => none

/-- Python `float(s)` on the decimal forms the dataset uses (optional sign,
surrounding whitespace); an unaccepted string raises `ValueError`, modelled
as `none` (the callers catch exactly that exception). -/
def pyFloat (s : String) : Option ℚ :=
  match (pyStrip s).data with
  | '-' :: rest => (parseUnsignedRat rest).map (fun q => -q)
  | '+' :: rest => parseUnsignedRat rest
  | l => parseUnsignedRat l

/-- Python `int(s)`: optional sign, one or more digits; failure is `none`. -/
def pyInt (s : String) : Option ℤ :=
  match (pyStrip s).data with
  | '-' :: rest =>
      if rest ≠ [] && allDigits rest then some (-(digitsVal rest : ℤ)) else none
  | '+' :: rest =>
      if rest ≠ [] && allDigits rest then some (digitsVal rest : ℤ) else none
  | l => if l ≠ [] && allDigits l then some (digitsVal l : ℤ) else none

/-! ## The price parsers (`TickerRepository._parse_*`)

Each takes the Python value `ticker_data.get(key)`, i.e. an optional string;
`if not value or value == ""` maps `None` and `""` to `None`, and any parse
exception is caught and degraded to `None`. -/

/-- Embeds `TickerRepository._parse_price`: strips `$` and `,`, parses a float. -/
def parse_price (v : Option String) : Option ℚ :=
  match v with
  | none => none
  | some s => if s = "" then none else pyFloat (stripChar ',' (stripChar '$' s))

/-- Embeds `TickerRepository._parse_decimal`: strips `,`, parses a float. -/
def parse_decimal (v : Option String) : Option ℚ :=
  match v with
  | none => none
  | some s => if s = "" then none else pyFloat (stripChar ',' s)

/-- Embeds `TickerRepository._parse_percentage`: strips `%`, parses a float; the
raw percentage number is kept (not divided by 100). -/
def parse_percentage (v : Option String) : Option ℚ :=
  match v with
  | none => none
  | some s => if s = "" then none else pyFloat (stripChar '%' s)

/-- Embeds `TickerRepository._parse_int`: strips `,`, parses an integer. -/
def parse_int (v : Option String) : Option ℤ :=
  match v with
  | none => none
  | some s => if s = "" then none else pyInt (stripChar ',' s)

/-! ## Data model

Rows of the relational store, as created by `ticker_repository.py`.
`schema.sql` is not part of the sources; the two constraints the repository
code relies on are modelled from the spec: `tickers.symbol` is unique and
non-null (the upsert is `ON CONFLICT (symbol)` and a missing symbol fails
the record), and the `exchanges` table is pre-seeded with the three codes
NASDAQ / NYSE / AMEX and read-only at sync time. -/

/-- One record of the remote JSON dataset, as accessed via
`ticker_data.get(...)`: every field may be absent (or JSON null), both
modelled as `none`. -/
structure RawTicker where
  symbol : Option String := none
  name : Option String := none
  country : Option String := none
  ipoyear : Option String := none
  url : Option String := none
  sector : Option String := none
  industry : Option String := none
  lastsale : Option String := none
  netchange : Option String := none
  pctchange : Option String := none
  volume : Option String := none
  marketCap : Option String := none
deriving Repr, DecidableEq

/-- A row of `tickers`. -/
structure TickerRow where
  id : ℕ
  symbol : String
  name : Option String
  exchange_id : Option ℕ
  industry_id : Option ℕ
  sector_id : Option ℕ
  country : Option String
  ipo_year : Option String
  nasdaq_url : Option String
deriving Repr, DecidableEq

/-- A row of `ticker_prices` (append-only). -/
structure PriceRow where
  ticker_id : ℕ
  last_sale : Option ℚ
  net_change : Option ℚ
  pct_change : Option ℚ
  volume : Option ℤ
  market_cap : Option ℚ
deriving Repr, DecidableEq

/-- The relational store: dimension tables as `(id, ...)` association
lists in insertion order (`SELECT ... WHERE name = x` returns the first
match), plus serial-id counters. -/
structure DB where
  sectors : List (ℕ × String)
  industries : List (ℕ × String × Option ℕ)
  exchanges : List (ℕ × String)
  tickers : List TickerRow
  prices : List PriceRow
  nextSectorId : ℕ
  nextIndustryId : ℕ
  nextTickerId : ℕ
deriving Repr, DecidableEq

/-- The pre-seeded `exchanges` table (modelled from the spec: fixed set
{NASDAQ, NYSE, AMEX}, read-only at sync time; `schema.sql` is not under
the sources). -/
def seedExchanges : List (ℕ × String) := [(1, "NASDAQ"), (2, "NYSE"), (3, "AMEX")]

/-- An empty store with the exchanges seeded. -/
def DB.empty : DB :=
  { sectors := [], industries := [], exchanges := seedExchanges,
    tickers := [], prices := [], nextSectorId := 1, nextIndustryId := 1, nextTickerId := 1 }

/-! ## Dimension resolution (`TickerRepository._get_or_create_*`) -/

/-- Embeds `TickerRepository._get_or_create_sector`: blank name resolves to no
sector; otherwise look up by exact name (first match) and create the row
on a miss, returning the new serial id. -/
def getOrCreateSector (db : DB) (sector_name : String) : Option ℕ × DB :=
  if isBlank sector_name then (none, db)
  else
    match db.sectors.find? (fun p => p.2 = sector_name) with
    | some p => (some p.1, db)
    | none =>
        (some db.nextSectorId,
         { db with sectors := db.sectors ++ [(db.nextSectorId, sector_name)],
                   nextSectorId := db.nextSectorId + 1 })

/-- Embeds `TickerRepository._get_or_create_industry`: same shape as the sector
resolver; a newly created row also stores the (optional) sector id. -/
def getOrCreateIndustry (db : DB) (industry_name : String) (sector_id : Option ℕ) :
    Option ℕ × DB :=
  if isBlank industry_name then (none, db)
  else
    match db.industries.find? (fun p => p.2.1 = industry_name) with
    | some p => (some p.1, db)
    | none =>
        (some db.nextIndustryId,
         { db with industries := db.industries ++ [(db.nextIndustryId, industry_name, sector_id)],
                   nextIndustryId := db.nextIndustryId + 1 })

/-- Embeds `TickerRepository._get_exchange_id`: lookup-only, after upper-casing
the code; an empty or unknown code resolves to no exchange. -/
def getExchangeId (db : DB) (exchange_code : String) : Option ℕ :=
  if exchange_code = "" then none
  else (db.exchanges.find? (fun p => p.2 = pyUpper exchange_code)).map (fun p => p.1)

/-! ## The per-record upsert (`TickerRepository.insert_ticker`) -/

/-- Python `x or None`: an empty string degrades to `None`
(`ticker_data.get("ipoyear") or None`). -/
def pyOrNone (v : Option String) : Option String :=
  if v = some "" then none else v

/-- The `INSERT ... ON CONFLICT (symbol) DO UPDATE` statement: keyed on
symbol, an existing row keeps its id and has every payload column
overwritten; a new row gets the next serial id.  Returns the `RETURNING id`
value and the updated store. -/
def upsertTicker (db : DB) (sym : String) (r : RawTicker)
    (exchange_id industry_id sector_id : Option ℕ) : ℕ × DB :=
  match db.tickers.find? (fun t => t.symbol = sym) with
  | some t =>
      let t' : TickerRow :=
        { t with name := r.name, exchange_id := exchange_id, industry_id := industry_id,
                 sector_id := sector_id, country := r.country,
                 ipo_year := pyOrNone r.ipoyear, nasdaq_url := r.url }
      (t.id, { db with tickers := db.tickers.map (fun u => if u.symbol = sym then t' else u) })
  | none =>
      let t : TickerRow :=
        { id := db.nextTickerId, symbol := sym, name := r.name, exchange_id := exchange_id,
          industry_id := industry_id, sector_id := sector_id, country := r.country,
          ipo_year := pyOrNone r.ipoyear, nasdaq_url := r.url }
      (t.id, { db with tickers := db.tickers ++ [t], nextTickerId := db.nextTickerId + 1 })

/-- The `INSERT INTO ticker_prices` statement of
`TickerRepository._insert_price_data`. -/
def insertPriceRow (db : DB) (ticker_id : ℕ) (r : RawTicker) : DB :=
  { db with prices := db.prices ++
      [{ ticker_id := ticker_id,
         last_sale := parse_price r.lastsale,
         net_change := parse_decimal r.netchange,
         pct_change := parse_percentage r.pctchange,
         volume := parse_int r.volume,
         market_cap := parse_decimal r.marketCap }] }

/-- Injected statement failures: the Python code observes a storage error
only as an exception raised by the corresponding `cursor.execute`. -/
structure Faults where
  failSector : Bool := false
  failIndustry : Bool := false
  failExchange : Bool := false
  failUpsert : Bool := false
  failPrice : Bool := false
deriving Repr, DecidableEq

/-- No statement fails. -/
def noFaults : Faults := {}

/-- Embeds `TickerRepository.insert_ticker`: the whole per-record sequence runs on
one connection inside one transaction; the surrounding `try/except` rolls
back and returns `False` on any exception that reaches it.  The price
insert is different: `_insert_price_data` catches its own exception and
only prints a warning, so `insert_ticker` goes on to `conn.commit()` and
returns `True`; since the failed statement left the transaction aborted,
that commit is a rollback on the server (psycopg2 / PostgreSQL semantics),
so the store is left unchanged.  A record without a symbol violates the
non-null key column (modelled from the spec: missing symbol fails the
record) and rolls back. -/
def insert_ticker (f : Faults) (db : DB) (ticker_data : RawTicker)
    (exchange_code : String) : Bool × DB :=
  if f.failSector then (false, db) else
  let s := getOrCreateSector db (ticker_data.sector.getD "")
  if f.failIndustry then (false, db) else
  let i := getOrCreateIndustry s.2 (ticker_data.industry.getD "") s.1
  if f.failExchange then (false, db) else
  let exchange_id := getExchangeId i.2 exchange_code
  if f.failUpsert then (false, db) else
  match ticker_data.symbol with
  | none => (false, db)
  | some sym =>
      let u := upsertTicker i.2 sym ticker_data exchange_id i.1 s.1
      if ticker_data.lastsale.getD "" ≠ "" then
        if f.failPrice then (true, db)
        else (true, insertPriceRow u.2 u.1 ticker_data)
      else (true, u.2)

/-! ## Read accessors -/

/-- The row shape returned by `TickerRepository.get_ticker_by_symbol`
(joined with the three dimension tables). -/
structure TickerView where
  symbol : String
  name : Option String
  country : Option String
  ipo_year : Option String
  nasdaq_url : Option String
  exchange_code : Option String
  sector : Option String
  industry : Option String
deriving Repr, DecidableEq

/-- Embeds `TickerRepository.get_ticker_by_symbol`: `WHERE t.symbol = symbol.upper()`,
`fetchone` (first matching row), left-joined dimension names. -/
def get_ticker_by_symbol (db : DB) (symbol : String) : Option TickerView :=
  (db.tickers.find? (fun t => t.symbol = pyUpper symbol)).map fun t =>
    { symbol := t.symbol, name := t.name, country := t.country,
      ipo_year := t.ipo_year, nasdaq_url := t.nasdaq_url,
      exchange_code := t.exchange_id.bind
        (fun i => (db.exchanges.find? (fun p => p.1 = i)).map (fun p => p.2)),
      sector := t.sector_id.bind
        (fun i => (db.sectors.find? (fun p => p.1 = i)).map (fun p => p.2)),
      industry := t.industry_id.bind
        (fun i => (db.industries.find? (fun p => p.1 = i)).map (fun p => p.2.1)) }

/-- Embeds `TickerRepository.get_ticker_count`: `SELECT COUNT(*) FROM tickers`;
the boolean injects a storage failure, observed as an exception. -/
def get_ticker_count (fail : Bool) (db : DB) : Except Unit ℕ :=
  if fail then .error () else .ok db.tickers.length

/-! ## Run state (`SyncStatus` of `ticker_sync_service.py`)

`datetime.now()` is modelled by an explicit tick value. -/

/-- The mutable run state tracked by `SyncStatus.__init__`. -/
structure SyncStatus where
  is_running : Bool := false
  started_at : Option ℕ := none
  completed_at : Option ℕ := none
  total_processed : ℕ := 0
  total_success : ℕ := 0
  total_errors : ℕ := 0
  current_exchange : Option String := none
  error_message : Option String := none
deriving Repr, DecidableEq

/-- Embeds `SyncStatus.start`: mark running, stamp `started_at`, reset every
counter and message. -/
def SyncStatus.start (now : ℕ) : SyncStatus :=
  { is_running := true, started_at := some now, completed_at := none,
    total_processed := 0, total_success := 0, total_errors := 0,
    current_exchange := none, error_message := none }

/-- Embeds `SyncStatus.complete`: clear the running flag, stamp `completed_at`,
clear the current exchange. -/
def SyncStatus.complete (st : SyncStatus) (now : ℕ) : SyncStatus :=
  { st with is_running := false, completed_at := some now, current_exchange := none }

/-- Embeds `SyncStatus.update_progress`: record the exchange and add the
per-exchange counts to the cumulative totals. -/
def SyncStatus.update_progress (st : SyncStatus) (exchange : String)
    (processed success errors : ℕ) : SyncStatus :=
  { st with current_exchange := some exchange,
            total_processed := st.total_processed + processed,
            total_success := st.total_success + success,
            total_errors := st.total_errors + errors }

/-- Embeds `SyncStatus.set_error`: clear the running flag, record the message,
stamp `completed_at` (the current exchange is not cleared). -/
def SyncStatus.set_error (st : SyncStatus) (error : String) (now : ℕ) : SyncStatus :=
  { st with is_running := false, error_message := some error, completed_at := some now }

/-! ## The orchestrator (`TickerSyncService`) -/

/-- A payload returned by `GitHubAdapter.get_json_file`: either a JSON
array of records or some other JSON shape. -/
inductive Json where
  | arr (records : List RawTicker)
  | other
deriving Repr, DecidableEq

/-- The environment of one run: the remote fetch by file path (raising is
`Except.error msg`, the `ValueError` text of the adapter) and the injected
per-record statement faults. -/
structure Env where
  fetch : String → Except String Json
  fault : RawTicker → Faults

/-- The environment in which every fetch returns an empty list and no
statement fails. -/
def Env.quiet : Env := { fetch := fun _ => .ok (.arr []), fault := fun _ => noFaults }

/-- The whole state owned by the service singleton: run state, store and
the tick counter standing for the wall clock. -/
structure ServiceState where
  status : SyncStatus
  db : DB
  clock : ℕ
deriving Repr, DecidableEq

/-- A fresh service over a given store. -/
def ServiceState.init (db : DB) : ServiceState := { status := {}, db := db, clock := 0 }

/-- The two exception classes the service raises. -/
inductive SyncError where
  | runtimeError (msg : String)
  | valueError (msg : String)
deriving Repr, DecidableEq

/-- Per-exchange statistics returned by `sync_exchange`. -/
structure ExchangeStats where
  total : ℕ
  success : ℕ
  errors : ℕ
deriving Repr, DecidableEq

/-- Embeds `TickerSyncService.EXCHANGES`, in dict insertion order. -/
def EXCHANGES : List (String × String) :=
  [("NASDAQ", "nasdaq/nasdaq_full_tickers.json"),
   ("NYSE", "nyse/nyse_full_tickers.json"),
   ("AMEX", "amex/amex_full_tickers.json")]

/-- The `for ticker in ticker_data` loop of `sync_exchange`: feed every
record through `insert_ticker`, counting successes and failures.
`insert_ticker` never raises, so the loop always completes. -/
def processRecords (env : Env) (exchange_code : String) :
    List RawTicker → DB → ℕ × ℕ × DB
  | [], db => (0, 0, db)
  | r :: rest, db =>
      let ins := insert_ticker (env.fault r) db r exchange_code
      let z := processRecords env exchange_code rest ins.2
      if ins.1 then (z.1 + 1, z.2.1, z.2.2) else (z.1, z.2.1 + 1, z.2.2)

/-- Embeds `TickerSyncService.sync_exchange`: fetch, check the payload is a list,
store every record; any exception is re-raised as
`ValueError("Failed to sync ...")`.  A failure happens before any record
of this exchange is written, so the store is unchanged on the error path. -/
def sync_exchange (env : Env) (db : DB) (exchange_code file_path : String) :
    Except String (ExchangeStats × DB) :=
  match env.fetch file_path with
  | .error e => .error ("Failed to sync " ++ exchange_code ++ ": " ++ e)
  | .ok .other =>
      .error ("Failed to sync " ++ exchange_code ++ ": Expected list, got non-list")
  | .ok (.arr l) =>
      let z := processRecords env exchange_code l db
      .ok ({ total := l.length, success := z.1, errors := z.2.1 }, z.2.2)

/-- The `for exchange_code, file_path in self.EXCHANGES.items()` loop of
`sync_all_exchanges`: each completed exchange updates the cumulative
counters; the first failing exchange stops the loop, keeping the store
as written so far. -/
def syncExchanges (env : Env) :
    List (String × String) → SyncStatus → DB →
    Except String (List (String × ExchangeStats)) × SyncStatus × DB
  | [], status, db => (.ok [], status, db)
  | (code, path) :: rest, status, db =>
      match sync_exchange env db code path with
      | .error e => (.error e, status, db)
      | .ok (stats, db') =>
          let status' := status.update_progress code stats.total stats.success stats.errors
          let z := syncExchanges env rest status' db'
          (z.1.map (fun results => (code, stats) :: results), z.2)

/-- The success payload of `sync_all_exchanges` (the constant `status` /
`message` strings are omitted). -/
structure RunSummary where
  exchanges : List (String × ExchangeStats)
  total_processed : ℕ
  total_success : ℕ
  total_errors : ℕ
  started_at : Option ℕ
  completed_at : Option ℕ
deriving Repr, DecidableEq

/-- Embeds `TickerSyncService.sync_all_exchanges`: reject with
`RuntimeError("Sync already in progress")` while a run is active (no state
is touched); otherwise start, process the three exchanges in order, and
either complete or record the error and re-raise it as
`RuntimeError("Sync failed: ...")`. -/
def sync_all_exchanges (env : Env) (st : ServiceState) :
    Except SyncError RunSummary × ServiceState :=
  if st.status.is_running then
    (.error (.runtimeError "Sync already in progress"), st)
  else
    let status0 := SyncStatus.start st.clock
    let z := syncExchanges env EXCHANGES status0 st.db
    match z.1 with
    | .ok results =>
        let statusC := z.2.1.complete (st.clock + 1)
        (.ok { exchanges := results,
               total_processed := statusC.total_processed,
               total_success := statusC.total_success,
               total_errors := statusC.total_errors,
               started_at := statusC.started_at,
               completed_at := statusC.completed_at },
         { status := statusC, db := z.2.2, clock := st.clock + 2 })
    | .error e =>
        let msg := "Sync failed: " ++ e
        (.error (.runtimeError msg),
         { status := z.2.1.set_error msg (st.clock + 1), db := z.2.2, clock := st.clock + 2 })

/-- The success payload of `sync_specific_exchange`. -/
structure ExchangeRunSummary where
  exchange : String
  total_processed : ℕ
  total_success : ℕ
  total_errors : ℕ
  started_at : Option ℕ
  completed_at : Option ℕ
deriving Repr, DecidableEq

/-- Embeds `TickerSyncService.sync_specific_exchange`: upper-case the argument,
reject an unknown code with `ValueError` before anything else, then behave
as a one-exchange run. -/
def sync_specific_exchange (env : Env) (st : ServiceState) (exchange_code : String) :
    Except SyncError ExchangeRunSummary × ServiceState :=
  let code := pyUpper exchange_code
  if (EXCHANGES.find? (fun p => p.1 = code)).isNone then
    (.error (.valueError ("Invalid exchange: " ++ code ++ ". Must be one of: NASDAQ, NYSE, AMEX")), st)
  else if st.status.is_running then
    (.error (.runtimeError "Sync already in progress"), st)
  else
    let status0 := SyncStatus.start st.clock
    let path := (((EXCHANGES.find? (fun p => p.1 = code)).map (fun p => p.2)).getD "")
    match sync_exchange env st.db code path with
    | .ok (stats, db') =>
        let statusC := (status0.update_progress code stats.total stats.success
          stats.errors).complete (st.clock + 1)
        (.ok { exchange := code,
               total_processed := stats.total,
               total_success := stats.success,
               total_errors := stats.errors,
               started_at := statusC.started_at,
               completed_at := statusC.completed_at },
         { status := statusC, db := db', clock := st.clock + 2 })
    | .error e =>
        let msg := "Sync failed: " ++ e
        (.error (.runtimeError msg),
         { status := status0.set_error msg (st.clock + 1), db := st.db, clock := st.clock + 2 })

/-- The dictionary returned by `get_sync_status`: `SyncStatus.to_dict`
plus the live `total_tickers_in_db` field. -/
structure StatusView where
  is_running : Bool
  started_at : Option ℕ
  completed_at : Option ℕ
  current_exchange : Option String
  total_processed : ℕ
  total_success : ℕ
  total_errors : ℕ
  error_message : Option String
  total_tickers_in_db : Option ℕ
deriving Repr, DecidableEq

/-- Embeds `TickerSyncService.get_sync_status`: the run state verbatim; the live
ticker count degrades to `None` when the storage read raises. -/
def get_sync_status (countFail : Bool) (st : ServiceState) : StatusView :=
  { is_running := st.status.is_running,
    started_at := st.status.started_at,
    completed_at := st.status.completed_at,
    current_exchange := st.status.current_exchange,
    total_processed := st.status.total_processed,
    total_success := st.status.total_success,
    total_errors := st.status.total_errors,
    error_message := st.status.error_message,
    total_tickers_in_db :=
      match get_ticker_count countFail st.db with
      | .ok n => some n
      | .error _ => none }

/-- A one-record dataset used to exercise the failure paths. -/
def sampleRecord : RawTicker :=
  { symbol := some "AAPL", name := some "Apple Inc.", lastsale := some "$1.00" }

/-- An environment whose NYSE fetch raises while the other fetches return
an empty list. -/
def envFailNYSE : Env :=
  { fetch := fun p =>
      if p = "nyse/nyse_full_tickers.json" then .error "boom" else .ok (.arr []),
    fault := fun _ => noFaults }

/-- The `null`-when-blank view of an optional dimension name, as the
pipeline stores it. -/
def dimValue (v : Option String) : Option String :=
  if isBlank (v.getD "") then none else some (v.getD "")

/-- A second record for the same symbol with every descriptive field
changed, used to exercise the overwrite path. -/
def sampleRecord2 : RawTicker :=
  { symbol := some "AAPL", name := some "Apple Inc. Common Stock",
    country := some "United States", ipoyear := some "1980",
    url := some "https://example.org/aapl",
    sector := some "Technology", industry := some "Computer Manufacturing",
    lastsale := some "$150.00", netchange := some "1.5", pctchange := some "1.01%",
    volume := some "100,000", marketCap := some "2,000,000,000" }

/-- A service state in the middle of a run. -/
def runningState : ServiceState :=
  { status := { is_running := true, started_at := some 3, total_processed := 7,
                total_success := 5, total_errors := 2, current_exchange := some "NYSE" },
    db := DB.empty, clock := 9 }

/-- The summary produced by a full sync over `Env.quiet` from a fresh state. -/
def quietRunSummary : RunSummary :=
  { exchanges := [("NASDAQ", ⟨0, 0, 0⟩), ("NYSE", ⟨0, 0, 0⟩), ("AMEX", ⟨0, 0, 0⟩)],
    total_processed := 0, total_success := 0, total_errors := 0,
    started_at := some 0, completed_at := some 1 }

/-- The service state after a full sync over `Env.quiet` from a fresh state. -/
def quietRunState : ServiceState :=
  { status := { is_running := false, started_at := some 0, completed_at := some 1,
                total_processed := 0, total_success := 0, total_errors := 0,
                current_exchange := none, error_message := none },
    db := DB.empty, clock := 2 }

/-- The fetch for this path returns a JSON array (the healthy case). -/
def fetchOkList (env : Env) (path : String) : Prop :=
  ∃ l, env.fetch path = .ok (.arr l)

/-- The fetch for this path raises, or returns a non-list payload. -/
def fetchBad (env : Env) (path : String) : Prop :=
  (∃ e, env.fetch path = .error e) ∨ env.fetch path = .ok .other

/-- Well-formedness invariants of the store that the schema guarantees:
serial ids below the counters, unique dimension ids, unique ticker
symbols, pre-seeded exchanges. -/
structure DB.WF (db : DB) : Prop where
  sector_lt : ∀ p ∈ db.sectors, p.1 < db.nextSectorId
  sector_nodup : (db.sectors.map Prod.fst).Nodup
  industry_lt : ∀ p ∈ db.industries, p.1 < db.nextIndustryId
  industry_nodup : (db.industries.map Prod.fst).Nodup
  ticker_nodup : (db.tickers.map TickerRow.symbol).Nodup
  exch_seeded : db.exchanges = seedExchanges

/-! ## General helper lemmas -/

theorem char_toNat_ofNat (n : ℕ) (h : n.isValidChar) : (Char.ofNat n).toNat = n := by
  simp [Char.ofNat, h]
  rfl

theorem upChar_idem (c : Char) : upChar (upChar c) = upChar c := by
  unfold upChar
  split
  · next h =>
    obtain ⟨h1, h2⟩ := h
    have h1' : 97 ≤ c.toNat := h1
    have h2' : c.toNat ≤ 122 := h2
    have hv : (c.toNat - 32).isValidChar := Or.inl (by omega)
    rw [if_neg]
    intro hcon
    obtain ⟨hc1, _⟩ := hcon
    have hc1' : 97 ≤ (Char.ofNat (c.toNat - 32)).toNat := hc1
    rw [char_toNat_ofNat _ hv] at hc1'
    omega
  · rfl

theorem upList_idem (l : List Char) : (l.map upChar).map upChar = l.map upChar := by
  induction l with
  | nil => rfl
  | cons c t ih => simp only [List.map_cons, upChar_idem, ih]

theorem pyUpper_idem (s : String) : pyUpper (pyUpper s) = pyUpper s := by
  cases s with
  | mk d => show String.mk ((d.map upChar).map upChar) = String.mk (d.map upChar)
            rw [upList_idem]

/-! ## Store well-formedness and list helpers -/

theorem DB_empty_WF : DB.empty.WF := by
  constructor <;> simp [DB.empty]

theorem find?_eq_of_mem_of_key_nodup {α β : Type _} [DecidableEq β] (f : α → β) :
    ∀ (l : List α), (l.map f).Nodup → ∀ (x : α), x ∈ l →
      l.find? (fun y => f y = f x) = some x := by
  intro l
  induction l with
  | nil => intro _ x hx; exact absurd hx (List.not_mem_nil x)
  | cons a t ih =>
    intro hn x hx
    rw [List.map_cons, List.nodup_cons] at hn
    rcases List.mem_cons.mp hx with rfl | hxt
    · simp [List.find?_cons]
    · rw [List.find?_cons]
      have hne : f a ≠ f x := by
        intro h
        exact hn.1 (h ▸ List.mem_map_of_mem f hxt)
      simp only [hne, decide_eq_true_eq, decide_eq_false, Bool.false_eq_true]
      exact ih hn.2 x hxt

theorem filter_length_one_of_find? {α β : Type _} [DecidableEq β] (f : α → β) (s : β) :
    ∀ (l : List α), (l.map f).Nodup → (∃ x0, l.find? (fun y => f y = s) = some x0) →
      (l.filter (fun y => f y = s)).length = 1 := by
  intro l
  induction l with
  | nil =>
    intro _ hex
    obtain ⟨x0, h⟩ := hex
    simp [List.find?] at h
  | cons a t ih =>
    intro hn hex
    rw [List.map_cons, List.nodup_cons] at hn
    by_cases hfa : f a = s
    · have ht : t.filter (fun y => f y = s) = [] := by
        rw [List.filter_eq_nil_iff]
        intro y hy
        simp only [decide_eq_true_eq]
        intro hys
        exact hn.1 ((hfa ▸ hys) ▸ List.mem_map_of_mem f hy)
      simp [List.filter_cons, hfa, ht]
    · obtain ⟨x0, hfind⟩ := hex
      rw [List.find?_cons] at hfind
      simp only [hfa, decide_eq_true_eq, decide_eq_false, Bool.false_eq_true] at hfind
      rw [List.filter_cons]
      simp only [hfa, decide_eq_true_eq, decide_eq_false, Bool.false_eq_true, if_false]
      exact ih hn.2 ⟨x0, hfind⟩

/-! ## Dimension-resolver lemmas -/

theorem getOrCreateSector_fields (db : DB) (n : String) :
    (getOrCreateSector db n).2.industries = db.industries ∧
    (getOrCreateSector db n).2.exchanges = db.exchanges ∧
    (getOrCreateSector db n).2.tickers = db.tickers ∧
    (getOrCreateSector db n).2.prices = db.prices ∧
    (getOrCreateSector db n).2.nextIndustryId = db.nextIndustryId ∧
    (getOrCreateSector db n).2.nextTickerId = db.nextTickerId := by
  unfold getOrCreateSector
  split
  · exact ⟨rfl, rfl, rfl, rfl, rfl, rfl⟩
  · split
    · exact ⟨rfl, rfl, rfl, rfl, rfl, rfl⟩
    · exact ⟨rfl, rfl, rfl, rfl, rfl, rfl⟩

theorem getOrCreateSector_WF (db : DB) (n : String) (hwf : db.WF) :
    (getOrCreateSector db n).2.WF := by
  unfold getOrCreateSector
  split
  · exact hwf
  · split
    · exact hwf
    · next hfind =>
      constructor
      · intro p hp
        rcases List.mem_append.mp hp with hold | hnew
        · exact Nat.lt_trans (hwf.sector_lt p hold) (Nat.lt_succ_self _)
        · rw [List.mem_singleton] at hnew
          subst hnew
          exact Nat.lt_succ_self _
      · rw [List.map_append, List.nodup_append]
        refine ⟨hwf.sector_nodup, by simp, ?_⟩
        intro a ha hb
        simp only [List.map_cons, List.map_nil, List.mem_singleton] at hb
        subst hb
        obtain ⟨p, hp, hpa⟩ := List.mem_map.mp ha
        exact absurd hpa (Nat.ne_of_lt (hwf.sector_lt p hp))
      · exact hwf.industry_lt
      · exact hwf.industry_nodup
      · exact hwf.ticker_nodup
      · exact hwf.exch_seeded

theorem getOrCreateSector_blank (db : DB) (n : String) (hb : isBlank n = true) :
    getOrCreateSector db n = (none, db) := by
  unfold getOrCreateSector
  simp [hb]

theorem getOrCreateSector_found (db : DB) (n : String) (hwf : db.WF)
    (hb : isBlank n = false) :
    ∃ i, (getOrCreateSector db n).1 = some i ∧
      (((getOrCreateSector db n).2.sectors.find? (fun p => p.1 = i)).map
        (fun p => p.2)) = some n := by
  unfold getOrCreateSector
  simp only [hb, Bool.false_eq_true, if_false]
  cases hf : db.sectors.find? (fun p => p.2 = n) with
  | some p =>
    refine ⟨p.1, rfl, ?_⟩
    have hmem := List.mem_of_find?_eq_some hf
    have hpred : p.2 = n := by simpa using List.find?_some hf
    have hkey := find?_eq_of_mem_of_key_nodup Prod.fst db.sectors hwf.sector_nodup p hmem
    rw [hkey]
    simp [hpred]
  | none =>
    refine ⟨db.nextSectorId, rfl, ?_⟩
    rw [List.find?_append]
    have hnone : db.sectors.find? (fun p => p.1 = db.nextSectorId) = none := by
      rw [List.find?_eq_none]
      intro x hx
      simp only [decide_eq_true_eq]
      exact Nat.ne_of_lt (hwf.sector_lt x hx)
    rw [hnone]
    simp

theorem getOrCreateIndustry_fields (db : DB) (n : String) (sid : Option ℕ) :
    (getOrCreateIndustry db n sid).2.sectors = db.sectors ∧
    (getOrCreateIndustry db n sid).2.exchanges = db.exchanges ∧
    (getOrCreateIndustry db n sid).2.tickers = db.tickers ∧
    (getOrCreateIndustry db n sid).2.prices = db.prices ∧
    (getOrCreateIndustry db n sid).2.nextSectorId = db.nextSectorId ∧
    (getOrCreateIndustry db n sid).2.nextTickerId = db.nextTickerId := by
  unfold getOrCreateIndustry
  split
  · exact ⟨rfl, rfl, rfl, rfl, rfl, rfl⟩
  · split
    · exact ⟨rfl, rfl, rfl, rfl, rfl, rfl⟩
    · exact ⟨rfl, rfl, rfl, rfl, rfl, rfl⟩

theorem getOrCreateIndustry_WF (db : DB) (n : String) (sid : Option ℕ) (hwf : db.WF) :
    (getOrCreateIndustry db n sid).2.WF := by
  unfold getOrCreateIndustry
  split
  · exact hwf
  · split
    · exact hwf
    · constructor
      · exact hwf.sector_lt
      · exact hwf.sector_nodup
      · intro p hp
        rcases List.mem_append.mp hp with hold | hnew
        · exact Nat.lt_trans (hwf.industry_lt p hold) (Nat.lt_succ_self _)
        · rw [List.mem_singleton] at hnew
          subst hnew
          exact Nat.lt_succ_self _
      · rw [List.map_append, List.nodup_append]
        refine ⟨hwf.industry_nodup, by simp, ?_⟩
        intro a ha hb
        simp only [List.map_cons, List.map_nil, List.mem_singleton] at hb
        subst hb
        obtain ⟨p, hp, hpa⟩ := List.mem_map.mp ha
        exact absurd hpa (Nat.ne_of_lt (hwf.industry_lt p hp))
      · exact hwf.ticker_nodup
      · exact hwf.exch_seeded

theorem getOrCreateIndustry_blank (db : DB) (n : String) (sid : Option ℕ)
    (hb : isBlank n = true) :
    getOrCreateIndustry db n sid = (none, db) := by
  unfold getOrCreateIndustry
  simp [hb]

theorem getOrCreateIndustry_found (db : DB) (n : String) (sid : Option ℕ) (hwf : db.WF)
    (hb : isBlank n = false) :
    ∃ i, (getOrCreateIndustry db n sid).1 = some i ∧
      (((getOrCreateIndustry db n sid).2.industries.find? (fun p => p.1 = i)).map
        (fun p => p.2.1)) = some n := by
  unfold getOrCreateIndustry
  simp only [hb, Bool.false_eq_true, if_false]
  cases hf : db.industries.find? (fun p => p.2.1 = n) with
  | some p =>
    refine ⟨p.1, rfl, ?_⟩
    have hmem := List.mem_of_find?_eq_some hf
    have hpred : p.2.1 = n := by simpa using List.find?_some hf
    have hkey := find?_eq_of_mem_of_key_nodup Prod.fst db.industries hwf.industry_nodup p hmem
    rw [hkey]
    simp [hpred]
  | none =>
    refine ⟨db.nextIndustryId, rfl, ?_⟩
    rw [List.find?_append]
    have hnone : db.industries.find? (fun p => p.1 = db.nextIndustryId) = none := by
      rw [List.find?_eq_none]
      intro x hx
      simp only [decide_eq_true_eq]
      exact Nat.ne_of_lt (hwf.industry_lt x hx)
    rw [hnone]
    simp

/-! ## Upsert lemmas -/

theorem find?_map_update (sym : String) (t' : TickerRow) (ht' : t'.symbol = sym) :
    ∀ (l : List TickerRow),
      (l.map (fun u => if u.symbol = sym then t' else u)).find? (fun t => t.symbol = sym) =
        (l.find? (fun t => t.symbol = sym)).map (fun _ => t') := by
  intro l
  induction l with
  | nil => rfl
  | cons a t ih =>
    by_cases ha : a.symbol = sym
    · simp [List.find?_cons, ha, ht']
    · simp [List.find?_cons, ha, ih]

theorem map_symbol_update (sym : String) (t' : TickerRow) (ht' : t'.symbol = sym) :
    ∀ (l : List TickerRow),
      (l.map (fun u => if u.symbol = sym then t' else u)).map TickerRow.symbol =
        l.map TickerRow.symbol := by
  intro l
  induction l with
  | nil => rfl
  | cons a t ih =>
    by_cases ha : a.symbol = sym
    · simp [ha, ht', ih]
    · simp [ha, ih]

theorem upsertTicker_spec (db : DB) (sym : String) (r : RawTicker)
    (ex ind sec : Option ℕ) (hnd : (db.tickers.map TickerRow.symbol).Nodup) :
    (upsertTicker db sym r ex ind sec).2.sectors = db.sectors ∧
    (upsertTicker db sym r ex ind sec).2.industries = db.industries ∧
    (upsertTicker db sym r ex ind sec).2.exchanges = db.exchanges ∧
    (upsertTicker db sym r ex ind sec).2.prices = db.prices ∧
    (upsertTicker db sym r ex ind sec).2.nextSectorId = db.nextSectorId ∧
    (upsertTicker db sym r ex ind sec).2.nextIndustryId = db.nextIndustryId ∧
    ((upsertTicker db sym r ex ind sec).2.tickers.map TickerRow.symbol).Nodup ∧
    (upsertTicker db sym r ex ind sec).2.tickers.find? (fun t => t.symbol = sym) = some
      { id := (upsertTicker db sym r ex ind sec).1, symbol := sym, name := r.name,
        exchange_id := ex, industry_id := ind, sector_id := sec, country := r.country,
        ipo_year := pyOrNone r.ipoyear, nasdaq_url := r.url } ∧
    ((upsertTicker db sym r ex ind sec).2.tickers.filter
      (fun t => t.symbol = sym)).length = 1 := by
  unfold upsertTicker
  cases hf : db.tickers.find? (fun t => t.symbol = sym) with
  | some t0 =>
    obtain ⟨id0, sym0, name0, ex0, ind0, sec0, c0, ipo0, url0⟩ := t0
    have hsym0 : sym0 = sym := by simpa using List.find?_some hf
    subst sym0
    have hfind := find?_map_update sym
      { id := id0, symbol := sym, name := r.name, exchange_id := ex, industry_id := ind,
        sector_id := sec, country := r.country, ipo_year := pyOrNone r.ipoyear,
        nasdaq_url := r.url } rfl db.tickers
    rw [hf] at hfind
    have hnd' := map_symbol_update sym
      { id := id0, symbol := sym, name := r.name, exchange_id := ex, industry_id := ind,
        sector_id := sec, country := r.country, ipo_year := pyOrNone r.ipoyear,
        nasdaq_url := r.url } rfl db.tickers
    refine ⟨rfl, rfl, rfl, rfl, rfl, rfl, ?_, ?_, ?_⟩
    · rw [hnd']; exact hnd
    · exact hfind
    · exact filter_length_one_of_find? TickerRow.symbol sym _ (by rw [hnd']; exact hnd)
        ⟨_, hfind⟩
  | none =>
    have hnotin : sym ∉ db.tickers.map TickerRow.symbol := by
      rw [List.find?_eq_none] at hf
      intro hmem
      obtain ⟨t, ht, hts⟩ := List.mem_map.mp hmem
      exact hf t ht (by simpa using hts)
    have hfind : (db.tickers ++
        [({ id := db.nextTickerId, symbol := sym, name := r.name, exchange_id := ex,
            industry_id := ind, sector_id := sec, country := r.country,
            ipo_year := pyOrNone r.ipoyear,
            nasdaq_url := r.url } : TickerRow)]).find? (fun t => t.symbol = sym) = some
        { id := db.nextTickerId, symbol := sym, name := r.name, exchange_id := ex,
          industry_id := ind, sector_id := sec, country := r.country,
          ipo_year := pyOrNone r.ipoyear, nasdaq_url := r.url } := by
      rw [List.find?_append, hf]
      simp [List.find?_cons]
    have hnd' : ((db.tickers ++
        [({ id := db.nextTickerId, symbol := sym, name := r.name, exchange_id := ex,
            industry_id := ind, sector_id := sec, country := r.country,
            ipo_year := pyOrNone r.ipoyear,
            nasdaq_url := r.url } : TickerRow)]).map TickerRow.symbol).Nodup := by
      rw [List.map_append, List.nodup_append]
      refine ⟨hnd, by simp, ?_⟩
      intro a ha hb
      simp only [List.map_cons, List.map_nil, List.mem_singleton] at hb
      subst hb
      exact hnotin ha
    exact ⟨rfl, rfl, rfl, rfl, rfl, rfl, hnd', hfind,
      filter_length_one_of_find? TickerRow.symbol sym _ hnd' ⟨_, hfind⟩⟩

theorem insertPriceRow_WF (db : DB) (tid : ℕ) (r : RawTicker) (hwf : db.WF) :
    (insertPriceRow db tid r).WF :=
  ⟨hwf.sector_lt, hwf.sector_nodup, hwf.industry_lt, hwf.industry_nodup,
   hwf.ticker_nodup, hwf.exch_seeded⟩

theorem insert_ticker_noFaults_eq (db : DB) (r : RawTicker) (code : String) :
    insert_ticker noFaults db r code =
      match r.symbol with
      | none => (false, db)
      | some sym =>
          let s := getOrCreateSector db (r.sector.getD "")
          let i := getOrCreateIndustry s.2 (r.industry.getD "") s.1
          let u := upsertTicker i.2 sym r (getExchangeId i.2 code) i.1 s.1
          if r.lastsale.getD "" ≠ "" then (true, insertPriceRow u.2 u.1 r)
          else (true, u.2) := rfl

theorem insert_round_trip_core (db : DB) (r : RawTicker) (sym code : String)
    (hwf : db.WF) (hsym : r.symbol = some sym) (hup : pyUpper sym = sym)
    (hex : code = "NASDAQ" ∨ code = "NYSE" ∨ code = "AMEX") :
    (insert_ticker noFaults db r code).1 = true ∧
    (insert_ticker noFaults db r code).2.WF ∧
    ((insert_ticker noFaults db r code).2.tickers.filter
        (fun t => t.symbol = sym)).length = 1 ∧
    get_ticker_by_symbol (insert_ticker noFaults db r code).2 sym = some
      { symbol := sym, name := r.name, country := r.country,
        ipo_year := pyOrNone r.ipoyear, nasdaq_url := r.url,
        exchange_code := some code,
        sector := dimValue r.sector, industry := dimValue r.industry } := by
  set secn := r.sector.getD "" with hsecn
  set indn := r.industry.getD "" with hindn
  set s := getOrCreateSector db secn with hsdef
  set i := getOrCreateIndustry s.2 indn s.1 with hidef
  set u := upsertTicker i.2 sym r (getExchangeId i.2 code) i.1 s.1 with hudef
  have hstep : insert_ticker noFaults db r code =
      if r.lastsale.getD "" ≠ "" then (true, insertPriceRow u.2 u.1 r)
      else (true, u.2) := by
    rw [insert_ticker_noFaults_eq, hsym]
  have swf : s.2.WF := getOrCreateSector_WF db secn hwf
  have iwf : i.2.WF := getOrCreateIndustry_WF s.2 indn s.1 swf
  obtain ⟨hi_sec, hi_exch, hi_tick, hi_pr, hi_ns, hi_nt⟩ :=
    getOrCreateIndustry_fields s.2 indn s.1
  obtain ⟨hu_sec, hu_ind, hu_exch, hu_pr, hu_ns, hu_ni, hu_nodup, hu_find, hu_cnt⟩ :=
    upsertTicker_spec i.2 sym r (getExchangeId i.2 code) i.1 s.1 iwf.ticker_nodup
  have huwf : u.2.WF := by
    refine ⟨?_, ?_, ?_, ?_, ?_, ?_⟩
    · intro p hp
      rw [hu_sec] at hp
      rw [hu_ns]
      exact iwf.sector_lt p hp
    · rw [hu_sec]; exact iwf.sector_nodup
    · intro p hp
      rw [hu_ind] at hp
      rw [hu_ni]
      exact iwf.industry_lt p hp
    · rw [hu_ind]; exact iwf.industry_nodup
    · exact hu_nodup
    · rw [hu_exch]; exact iwf.exch_seeded
  have hbindex : (getExchangeId i.2 code).bind
      (fun j => ((seedExchanges.find? (fun p => p.1 = j)).map (fun p => p.2))) =
        some code := by
    unfold getExchangeId
    rw [iwf.exch_seeded]
    rcases hex with rfl | rfl | rfl <;> decide
  have hbindsec : s.1.bind
      (fun j => ((s.2.sectors.find? (fun p => p.1 = j)).map (fun p => p.2))) =
        dimValue r.sector := by
    by_cases hbs : isBlank secn = true
    · rw [hsdef, getOrCreateSector_blank db secn hbs]
      simp only [Option.bind]
      rw [dimValue, ← hsecn, hbs]
      simp
    · obtain ⟨si, hsi, hslook⟩ :=
        getOrCreateSector_found db secn hwf (Bool.not_eq_true _ ▸ hbs)
      rw [hsi]
      simp only [Option.bind]
      rw [hslook, dimValue, ← hsecn]
      rw [Bool.not_eq_true] at hbs
      rw [hbs]
      simp
  have hbindind : i.1.bind
      (fun j => ((i.2.industries.find? (fun p => p.1 = j)).map (fun p => p.2.1))) =
        dimValue r.industry := by
    by_cases hbi : isBlank indn = true
    · rw [hidef, getOrCreateIndustry_blank s.2 indn s.1 hbi]
      simp only [Option.bind]
      rw [dimValue, ← hindn, hbi]
      simp
    · obtain ⟨ii, hii, hilook⟩ :=
        getOrCreateIndustry_found s.2 indn s.1 swf (Bool.not_eq_true _ ▸ hbi)
      rw [hii]
      simp only [Option.bind]
      rw [hilook, dimValue, ← hindn]
      rw [Bool.not_eq_true] at hbi
      rw [hbi]
      simp
  rw [hstep]
  by_cases hls : r.lastsale.getD "" ≠ ""
  · rw [if_pos hls]
    have hft : (insertPriceRow u.2 u.1 r).tickers = u.2.tickers := rfl
    have hfe : (insertPriceRow u.2 u.1 r).exchanges = u.2.exchanges := rfl
    have hfs : (insertPriceRow u.2 u.1 r).sectors = u.2.sectors := rfl
    have hfi : (insertPriceRow u.2 u.1 r).industries = u.2.industries := rfl
    refine ⟨rfl, insertPriceRow_WF u.2 u.1 r huwf, ?_, ?_⟩
    · show ((insertPriceRow u.2 u.1 r).tickers.filter (fun t => t.symbol = sym)).length = 1
      rw [hft]
      exact hu_cnt
    · show get_ticker_by_symbol (insertPriceRow u.2 u.1 r) sym = _
      unfold get_ticker_by_symbol
      rw [hup, hft, hfe, hfs, hfi, hu_find]
      simp only [Option.map_some', Option.some.injEq, TickerView.mk.injEq,
        true_and, and_true]
      refine ⟨?_, ?_, ?_⟩
      · have hue : u.2.exchanges = seedExchanges := by
          rw [hudef, hu_exch]; exact iwf.exch_seeded
        rw [hue]
        exact hbindex
      · have hus : u.2.sectors = s.2.sectors := by
          rw [hudef, hu_sec, hidef]; exact hi_sec
        rw [hus]
        exact hbindsec
      · have hui : u.2.industries = i.2.industries := by
          rw [hudef]; exact hu_ind
        rw [hui]
        exact hbindind
  · rw [if_neg hls]
    refine ⟨rfl, huwf, ?_, ?_⟩
    · exact hu_cnt
    · show get_ticker_by_symbol u.2 sym = _
      unfold get_ticker_by_symbol
      rw [hup, hu_find]
      simp only [Option.map_some', Option.some.injEq, TickerView.mk.injEq,
        true_and, and_true]
      refine ⟨?_, ?_, ?_⟩
      · have hue : u.2.exchanges = seedExchanges := by
          rw [hudef, hu_exch]; exact iwf.exch_seeded
        rw [hue]
        exact hbindex
      · have hus : u.2.sectors = s.2.sectors := by
          rw [hudef, hu_sec, hidef]; exact hi_sec
        rw [hus]
        exact hbindsec
      · have hui : u.2.industries = i.2.industries := by
          rw [hudef]; exact hu_ind
        rw [hui]
        exact hbindind

/-! ## Orchestrator-loop lemmas -/

theorem sync_exchange_ok_of_fetchOk (env : Env) (db : DB) (code path : String)
    (h : fetchOkList env path) :
    ∃ stats db', sync_exchange env db code path = .ok (stats, db') := by
  obtain ⟨l, hl⟩ := h
  unfold sync_exchange
  rw [hl]
  exact ⟨_, _, rfl⟩

theorem sync_exchange_err_of_bad (env : Env) (db : DB) (code path : String)
    (h : fetchBad env path) :
    ∃ msg, sync_exchange env db code path = .error msg := by
  rcases h with ⟨e, he⟩ | he
  · exact ⟨_, by unfold sync_exchange; rw [he]⟩
  · exact ⟨_, by unfold sync_exchange; rw [he]⟩

theorem syncExchanges_cons_err (env : Env) (code path : String)
    (tl : List (String × String)) (status : SyncStatus) (db : DB) (e : String)
    (h : sync_exchange env db code path = .error e) :
    syncExchanges env ((code, path) :: tl) status db = (.error e, status, db) := by
  simp only [syncExchanges, h]

theorem syncExchanges_cons_ok (env : Env) (code path : String)
    (tl : List (String × String)) (status : SyncStatus) (db : DB)
    (stats : ExchangeStats) (db1 : DB)
    (h : sync_exchange env db code path = .ok (stats, db1)) :
    syncExchanges env ((code, path) :: tl) status db =
      ((syncExchanges env tl
          (status.update_progress code stats.total stats.success stats.errors) db1).1.map
            (fun results => (code, stats) :: results),
       (syncExchanges env tl
          (status.update_progress code stats.total stats.success stats.errors) db1).2) := by
  simp only [syncExchanges, h]

theorem syncExchanges_ok_totals (env : Env) :
    ∀ (l : List (String × String)) (status : SyncStatus) (db : DB)
      (results : List (String × ExchangeStats)),
      (syncExchanges env l status db).1 = .ok results →
      (syncExchanges env l status db).2.1.total_processed =
        status.total_processed + (results.map (fun p => p.2.total)).sum ∧
      (syncExchanges env l status db).2.1.total_success =
        status.total_success + (results.map (fun p => p.2.success)).sum ∧
      (syncExchanges env l status db).2.1.total_errors =
        status.total_errors + (results.map (fun p => p.2.errors)).sum := by
  intro l
  induction l with
  | nil =>
    intro status db results h
    simp only [syncExchanges] at h ⊢
    obtain rfl : results = [] := by simpa using h.symm
    simp
  | cons hd tl ih =>
    intro status db results h
    obtain ⟨code, path⟩ := hd
    cases hse : sync_exchange env db code path with
    | error e =>
      rw [syncExchanges_cons_err env code path tl status db e hse] at h
      simp at h
    | ok v =>
      obtain ⟨stats, db1⟩ := v
      rw [syncExchanges_cons_ok env code path tl status db stats db1 hse] at h ⊢
      cases hz1 : (syncExchanges env tl
          (status.update_progress code stats.total stats.success stats.errors) db1).1 with
      | error e =>
        rw [hz1] at h
        simp [Except.map] at h
      | ok res =>
        rw [hz1] at h
        obtain rfl : results = (code, stats) :: res := by
          simpa [Except.map] using h.symm
        obtain ⟨h1, h2, h3⟩ :=
          ih (status.update_progress code stats.total stats.success stats.errors) db1 res hz1
        simp only [List.map_cons, List.sum_cons]
        rw [h1, h2, h3]
        simp only [SyncStatus.update_progress]
        omega

theorem syncExchanges_append_err (env : Env) (code path : String)
    (post : List (String × String)) (hbad : fetchBad env path) :
    ∀ (pre : List (String × String)) (status : SyncStatus) (db : DB),
      (∀ p ∈ pre, fetchOkList env p.2) →
      ∃ msg, syncExchanges env (pre ++ (code, path) :: post) status db =
        (.error msg, (syncExchanges env pre status db).2) := by
  intro pre
  induction pre with
  | nil =>
    intro status db _
    obtain ⟨msg, hm⟩ := sync_exchange_err_of_bad env db code path hbad
    exact ⟨msg, by
      rw [List.nil_append, syncExchanges_cons_err env code path post status db msg hm]
      rfl⟩
  | cons p0 pre ih =>
    intro status db hpre
    obtain ⟨c0, pth0⟩ := p0
    obtain ⟨stats, db1, hok⟩ :=
      sync_exchange_ok_of_fetchOk env db c0 pth0 (hpre (c0, pth0) (List.mem_cons_self _ _))
    obtain ⟨msg, hm⟩ :=
      ih (status.update_progress c0 stats.total stats.success stats.errors) db1
        (fun p hp => hpre p (List.mem_cons_of_mem _ hp))
    refine ⟨msg, ?_⟩
    rw [List.cons_append, syncExchanges_cons_ok env c0 pth0 _ status db stats db1 hok, hm,
        syncExchanges_cons_ok env c0 pth0 pre status db stats db1 hok]
    rfl

/-! ## The claims -/

/-- Claim C1, counterexample: a record whose price-snapshot insert raises is
still reported as a success — `insert_ticker` returns `True`, not `False` as
the claim requires (the transaction is nevertheless rolled back, so the
store is unchanged). -/
theorem insert_ticker_price_fault_reports_success :
    insert_ticker { failPrice := true } DB.empty sampleRecord "NASDAQ" = (true, DB.empty) := by
  decide

/-- Claim C1, amended: an exception during dimension resolution or the
ticker upsert (steps 1-4), or a missing symbol, rolls the transaction back,
leaves the store unchanged and reports failure (`False`) for that record
only, without raising.  An exception during the price-snapshot insert is
caught inside the engine and only logged: nothing persists either (the
aborted transaction's commit is a rollback), but the engine reports success
(`True`) for that record. -/
theorem insert_ticker_rollback_amended (f : Faults) (db : DB) (r : RawTicker) (code : String) :
    (f.failSector = true ∨ f.failIndustry = true ∨ f.failExchange = true ∨
        f.failUpsert = true ∨ r.symbol = none →
      insert_ticker f db r code = (false, db)) ∧
    (f.failSector = false → f.failIndustry = false → f.failExchange = false →
        f.failUpsert = false → f.failPrice = true →
        r.symbol ≠ none → r.lastsale.getD "" ≠ "" →
      insert_ticker f db r code = (true, db)) := by
  constructor
  · intro h
    unfold insert_ticker
    rcases h with h | h | h | h | h <;>
      cases hs : f.failSector <;> cases hi : f.failIndustry <;>
      cases he : f.failExchange <;> cases hu : f.failUpsert <;>
      simp_all
  · intro hs hi he hu hp hsym hls
    unfold insert_ticker
    rw [hs, hi, he, hu]
    simp only [if_false, Bool.false_eq_true]
    cases hsymc : r.symbol with
    | none => exact absurd hsymc hsym
    | some s => simp [hls, hp]

/-- Witness for the amended claim C1 at a concrete record: a failing upsert
statement yields `(False, unchanged store)`; a failing price insert yields
`(True, unchanged store)`. -/
theorem insert_ticker_rollback_amended_witness :
    insert_ticker { failUpsert := true } DB.empty sampleRecord "NASDAQ" = (false, DB.empty) ∧
    insert_ticker { failPrice := true } DB.empty sampleRecord "NASDAQ" = (true, DB.empty) := by
  refine ⟨(insert_ticker_rollback_amended { failUpsert := true } DB.empty sampleRecord "NASDAQ").1
      (by right; right; right; left; rfl),
    (insert_ticker_rollback_amended { failPrice := true } DB.empty sampleRecord "NASDAQ").2
      rfl rfl rfl rfl rfl (by decide) (by decide)⟩

/-- Claim C2: while a run is active (`is_running`), both `sync_all_exchanges`
and `sync_specific_exchange` (with a valid code) fail immediately with
`RuntimeError("Sync already in progress")` and return the service state
unchanged — counters, timestamps, current exchange and error message
included. -/
theorem second_start_conflict_no_mutation (env : Env) (st : ServiceState) (code : String)
    (hrun : st.status.is_running = true)
    (hvalid : (EXCHANGES.find? (fun p => p.1 = pyUpper code)).isSome) :
    sync_all_exchanges env st = (.error (.runtimeError "Sync already in progress"), st) ∧
    sync_specific_exchange env st code = (.error (.runtimeError "Sync already in progress"), st) := by
  constructor
  · unfold sync_all_exchanges
    rw [hrun]
    simp
  · obtain ⟨v, hv⟩ := Option.isSome_iff_exists.mp hvalid
    unfold sync_specific_exchange
    simp [hv, hrun]

/-- Witness for claim C2 on a mid-run state and the code NYSE. -/
theorem second_start_conflict_no_mutation_witness :
    sync_all_exchanges Env.quiet runningState =
      (.error (.runtimeError "Sync already in progress"), runningState) ∧
    sync_specific_exchange Env.quiet runningState "NYSE" =
      (.error (.runtimeError "Sync already in progress"), runningState) :=
  second_start_conflict_no_mutation Env.quiet runningState "NYSE" rfl (by decide)

/-- Claim C3: over a well-formed store, upserting a record with a valid
non-empty (uppercase) symbol and then reading it back by symbol returns
exactly one row whose name, exchange, sector, industry, country, IPO year
and source URL match the record; upserting the same symbol twice keeps a
single row and the second record's values win. -/
theorem upsert_get_round_trip (db : DB) (r1 r2 : RawTicker) (sym code1 code2 : String)
    (hwf : db.WF)
    (h1 : r1.symbol = some sym) (h2 : r2.symbol = some sym)
    (hne : sym ≠ "") (hup : pyUpper sym = sym)
    (hex1 : code1 = "NASDAQ" ∨ code1 = "NYSE" ∨ code1 = "AMEX")
    (hex2 : code2 = "NASDAQ" ∨ code2 = "NYSE" ∨ code2 = "AMEX") :
    (insert_ticker noFaults db r1 code1).1 = true ∧
    ((insert_ticker noFaults db r1 code1).2.tickers.filter
        (fun t => t.symbol = sym)).length = 1 ∧
    get_ticker_by_symbol (insert_ticker noFaults db r1 code1).2 sym = some
      { symbol := sym, name := r1.name, country := r1.country,
        ipo_year := pyOrNone r1.ipoyear, nasdaq_url := r1.url,
        exchange_code := some code1,
        sector := dimValue r1.sector, industry := dimValue r1.industry } ∧
    (insert_ticker noFaults (insert_ticker noFaults db r1 code1).2 r2 code2).1 = true ∧
    ((insert_ticker noFaults (insert_ticker noFaults db r1 code1).2 r2
        code2).2.tickers.filter (fun t => t.symbol = sym)).length = 1 ∧
    get_ticker_by_symbol
        (insert_ticker noFaults (insert_ticker noFaults db r1 code1).2 r2 code2).2 sym =
      some
        { symbol := sym, name := r2.name, country := r2.country,
          ipo_year := pyOrNone r2.ipoyear, nasdaq_url := r2.url,
          exchange_code := some code2,
          sector := dimValue r2.sector, industry := dimValue r2.industry } := by
  obtain ⟨a1, w1, c1, g1⟩ := insert_round_trip_core db r1 sym code1 hwf h1 hup hex1
  obtain ⟨a2, w2, c2, g2⟩ := insert_round_trip_core (insert_ticker noFaults db r1 code1).2
    r2 sym code2 w1 h2 hup hex2
  exact ⟨a1, c1, g1, a2, c2, g2⟩

/-- Witness for claim C3: AAPL inserted for NASDAQ, then overwritten with
new field values for NYSE, starting from the empty seeded store. -/
theorem upsert_get_round_trip_witness :
    (insert_ticker noFaults DB.empty sampleRecord "NASDAQ").1 = true ∧
    ((insert_ticker noFaults DB.empty sampleRecord "NASDAQ").2.tickers.filter
        (fun t => t.symbol = "AAPL")).length = 1 ∧
    get_ticker_by_symbol (insert_ticker noFaults DB.empty sampleRecord "NASDAQ").2
        "AAPL" = some
      { symbol := "AAPL", name := sampleRecord.name, country := sampleRecord.country,
        ipo_year := pyOrNone sampleRecord.ipoyear, nasdaq_url := sampleRecord.url,
        exchange_code := some "NASDAQ",
        sector := dimValue sampleRecord.sector,
        industry := dimValue sampleRecord.industry } ∧
    (insert_ticker noFaults (insert_ticker noFaults DB.empty sampleRecord "NASDAQ").2
        sampleRecord2 "NYSE").1 = true ∧
    ((insert_ticker noFaults (insert_ticker noFaults DB.empty sampleRecord "NASDAQ").2
        sampleRecord2 "NYSE").2.tickers.filter
          (fun t => t.symbol = "AAPL")).length = 1 ∧
    get_ticker_by_symbol
        (insert_ticker noFaults (insert_ticker noFaults DB.empty sampleRecord "NASDAQ").2
          sampleRecord2 "NYSE").2 "AAPL" = some
      { symbol := "AAPL", name := sampleRecord2.name, country := sampleRecord2.country,
        ipo_year := pyOrNone sampleRecord2.ipoyear, nasdaq_url := sampleRecord2.url,
        exchange_code := some "NYSE",
        sector := dimValue sampleRecord2.sector,
        industry := dimValue sampleRecord2.industry } :=
  upsert_get_round_trip DB.empty sampleRecord sampleRecord2 "AAPL" "NASDAQ" "NYSE"
    DB_empty_WF rfl rfl (by decide) (by decide) (Or.inl rfl) (Or.inr (Or.inl rfl))

/-- Claim C4: resolving a blank sector/industry name returns `none` and
creates no row; resolving a non-blank name twice against the same store
never creates two rows — the second call returns exactly the first call's
id and leaves the store unchanged — and the first call creates the row when
it is absent. -/
theorem dimension_get_or_create_idem (db : DB) (n : String) (sid sid2 : Option ℕ) :
    (isBlank n = true →
      getOrCreateSector db n = (none, db) ∧ getOrCreateIndustry db n sid = (none, db)) ∧
    (isBlank n = false →
      getOrCreateSector (getOrCreateSector db n).2 n = getOrCreateSector db n ∧
      getOrCreateIndustry (getOrCreateIndustry db n sid).2 n sid2 =
        getOrCreateIndustry db n sid ∧
      (db.sectors.find? (fun p => p.2 = n) = none →
        (getOrCreateSector db n).2.sectors = db.sectors ++ [(db.nextSectorId, n)]) ∧
      (db.industries.find? (fun p => p.2.1 = n) = none →
        (getOrCreateIndustry db n sid).2.industries =
          db.industries ++ [(db.nextIndustryId, n, sid)])) := by
  constructor
  · intro hb
    refine ⟨?_, ?_⟩
    · unfold getOrCreateSector; simp [hb]
    · unfold getOrCreateIndustry; simp [hb]
  · intro hb
    refine ⟨?_, ?_, ?_, ?_⟩
    · unfold getOrCreateSector
      cases h1 : db.sectors.find? (fun p => p.2 = n) with
      | some p => simp [hb, h1]
      | none =>
        simp only [hb, Bool.false_eq_true, if_false, h1]
        rw [List.find?_append, h1]
        simp
    · unfold getOrCreateIndustry
      cases h1 : db.industries.find? (fun p => p.2.1 = n) with
      | some p => simp [hb, h1]
      | none =>
        simp only [hb, Bool.false_eq_true, if_false, h1]
        rw [List.find?_append, h1]
        simp
    · intro h1
      unfold getOrCreateSector
      simp [hb, h1]
    · intro h1
      unfold getOrCreateIndustry
      simp [hb, h1]

/-- Witness for claim C4 on a blank name and on the names Technology /
Software over the empty store. -/
theorem dimension_get_or_create_idem_witness :
    (getOrCreateSector DB.empty "  " = (none, DB.empty) ∧
      getOrCreateIndustry DB.empty "  " (some 1) = (none, DB.empty)) ∧
    (getOrCreateSector (getOrCreateSector DB.empty "Technology").2 "Technology" =
        getOrCreateSector DB.empty "Technology" ∧
      getOrCreateIndustry (getOrCreateIndustry DB.empty "Software" (some 1)).2 "Software"
          (some 2) = getOrCreateIndustry DB.empty "Software" (some 1) ∧
      (DB.empty.sectors.find? (fun p => p.2 = "Technology") = none →
        (getOrCreateSector DB.empty "Technology").2.sectors =
          DB.empty.sectors ++ [(DB.empty.nextSectorId, "Technology")]) ∧
      (DB.empty.industries.find? (fun p => p.2.1 = "Software") = none →
        (getOrCreateIndustry DB.empty "Software" (some 1)).2.industries =
          DB.empty.industries ++ [(DB.empty.nextIndustryId, "Software", some 1)])) :=
  ⟨(dimension_get_or_create_idem DB.empty "  " (some 1) (some 2)).1 (by decide),
   (dimension_get_or_create_idem DB.empty "Technology" (some 1) (some 2)).2 (by decide) |>.1,
   (dimension_get_or_create_idem DB.empty "Software" (some 1) (some 2)).2 (by decide) |>.2.1,
   (dimension_get_or_create_idem DB.empty "Technology" (some 1) (some 2)).2 (by decide) |>.2.2.1,
   (dimension_get_or_create_idem DB.empty "Software" (some 1) (some 2)).2 (by decide) |>.2.2.2⟩

/-- Claim C5: the price parser maps `"$65.86"` to `65.86`, the volume parser
maps `"1,234"` to `1234`, the percentage parser maps `"0.259%"` to `0.259`
(not divided by 100), and all three parsers map empty, missing or
unparsable input to `None` instead of raising. -/
theorem price_parsers_examples :
    parse_price (some "$65.86") = some (6586 / 100 : ℚ) ∧
    parse_int (some "1,234") = some 1234 ∧
    parse_percentage (some "0.259%") = some (259 / 1000 : ℚ) ∧
    parse_price (some "") = none ∧
    parse_percentage (some "") = none ∧
    parse_int (some "") = none ∧
    parse_price none = none ∧
    parse_percentage none = none ∧
    parse_int none = none ∧
    parse_price (some "N/A") = none ∧
    parse_percentage (some "--") = none ∧
    parse_int (some "4.5") = none := by
  refine ⟨?_, by decide, ?_, by decide, by decide, by decide, by decide,
    by decide, by decide, by decide, by decide, by decide⟩
  · have h : parse_price (some "$65.86") = some (((65:ℕ):ℚ) + ((86:ℕ):ℚ) / 10 ^ 2) := rfl
    rw [h]; norm_num
  · have h : parse_percentage (some "0.259%") = some (((0:ℕ):ℚ) + ((259:ℕ):ℚ) / 10 ^ 3) := rfl
    rw [h]; norm_num

/-- Claim C6: if, during a full sync, the fetch for some exchange raises or
returns a non-list payload while all earlier exchanges fetched fine, the
whole run aborts: the call raises `RuntimeError`, the run state ends not
running with that error message recorded and a completion timestamp, and
the store keeps exactly the records committed for the earlier exchanges. -/
theorem full_sync_fetch_failure_aborts (env : Env) (st : ServiceState)
    (pre post : List (String × String)) (code path : String)
    (hsplit : EXCHANGES = pre ++ (code, path) :: post)
    (hrun : st.status.is_running = false)
    (hpre : ∀ p ∈ pre, fetchOkList env p.2)
    (hbad : fetchBad env path) :
    ∃ msg st2, sync_all_exchanges env st =
        (.error (.runtimeError ("Sync failed: " ++ msg)), st2) ∧
      st2.status.is_running = false ∧
      st2.status.error_message = some ("Sync failed: " ++ msg) ∧
      st2.status.completed_at.isSome = true ∧
      st2.db = (syncExchanges env pre (SyncStatus.start st.clock) st.db).2.2 := by
  obtain ⟨msg, hm⟩ :=
    syncExchanges_append_err env code path post hbad pre (SyncStatus.start st.clock) st.db hpre
  rw [← hsplit] at hm
  refine ⟨msg,
    { status := (syncExchanges env pre (SyncStatus.start st.clock) st.db).2.1.set_error
        ("Sync failed: " ++ msg) (st.clock + 1),
      db := (syncExchanges env pre (SyncStatus.start st.clock) st.db).2.2,
      clock := st.clock + 2 }, ?_, rfl, rfl, rfl, rfl⟩
  unfold sync_all_exchanges
  simp only [hrun, Bool.false_eq_true, if_false]
  rw [hm]

/-- Witness for claim C6: the NYSE fetch raises after a successful NASDAQ
pass. -/
theorem full_sync_fetch_failure_aborts_witness :
    ∃ msg st2, sync_all_exchanges envFailNYSE (ServiceState.init DB.empty) =
        (.error (.runtimeError ("Sync failed: " ++ msg)), st2) ∧
      st2.status.is_running = false ∧
      st2.status.error_message = some ("Sync failed: " ++ msg) ∧
      st2.status.completed_at.isSome = true ∧
      st2.db = (syncExchanges envFailNYSE [("NASDAQ", "nasdaq/nasdaq_full_tickers.json")]
        (SyncStatus.start (ServiceState.init DB.empty).clock)
        (ServiceState.init DB.empty).db).2.2 :=
  full_sync_fetch_failure_aborts envFailNYSE (ServiceState.init DB.empty)
    [("NASDAQ", "nasdaq/nasdaq_full_tickers.json")]
    [("AMEX", "amex/amex_full_tickers.json")]
    "NYSE" "nyse/nyse_full_tickers.json" rfl rfl
    (by
      intro p hp
      simp only [List.mem_singleton] at hp
      subst hp
      exact ⟨[], rfl⟩)
    (Or.inl ⟨"boom", rfl⟩)

/-- Claim C7: after a full sync completes successfully, the reported status
has `is_running = false`, a non-null `completed_at`, and cumulative
processed / success / error counters equal to the sums of the per-exchange
results of that run (the counters were reset when the run started). -/
theorem full_sync_success_status (env : Env) (st : ServiceState)
    (summary : RunSummary) (st2 : ServiceState)
    (hrun : st.status.is_running = false)
    (hok : sync_all_exchanges env st = (.ok summary, st2)) :
    (get_sync_status false st2).is_running = false ∧
    (get_sync_status false st2).completed_at.isSome = true ∧
    (get_sync_status false st2).total_processed =
      (summary.exchanges.map (fun p => p.2.total)).sum ∧
    (get_sync_status false st2).total_success =
      (summary.exchanges.map (fun p => p.2.success)).sum ∧
    (get_sync_status false st2).total_errors =
      (summary.exchanges.map (fun p => p.2.errors)).sum ∧
    summary.total_processed = st2.status.total_processed ∧
    summary.total_success = st2.status.total_success ∧
    summary.total_errors = st2.status.total_errors := by
  unfold sync_all_exchanges at hok
  simp only [hrun, Bool.false_eq_true, if_false] at hok
  cases hz1 : (syncExchanges env EXCHANGES (SyncStatus.start st.clock) st.db).1 with
  | error e =>
    rw [hz1] at hok
    simp at hok
  | ok results =>
    rw [hz1] at hok
    simp only [Prod.mk.injEq, Except.ok.injEq] at hok
    obtain ⟨hsum, hst⟩ := hok
    subst hst
    subst hsum
    obtain ⟨h1, h2, h3⟩ :=
      syncExchanges_ok_totals env EXCHANGES (SyncStatus.start st.clock) st.db results hz1
    refine ⟨rfl, rfl, ?_, ?_, ?_, rfl, rfl, rfl⟩
    · simpa [SyncStatus.start, SyncStatus.complete, get_sync_status] using h1
    · simpa [SyncStatus.start, SyncStatus.complete, get_sync_status] using h2
    · simpa [SyncStatus.start, SyncStatus.complete, get_sync_status] using h3

/-- Witness for claim C7 on a quiet environment over the empty store. -/
theorem full_sync_success_status_witness :
    (get_sync_status false quietRunState).is_running = false ∧
    (get_sync_status false quietRunState).completed_at.isSome = true ∧
    (get_sync_status false quietRunState).total_processed =
      (quietRunSummary.exchanges.map (fun p => p.2.total)).sum ∧
    (get_sync_status false quietRunState).total_success =
      (quietRunSummary.exchanges.map (fun p => p.2.success)).sum ∧
    (get_sync_status false quietRunState).total_errors =
      (quietRunSummary.exchanges.map (fun p => p.2.errors)).sum ∧
    quietRunSummary.total_processed = quietRunState.status.total_processed ∧
    quietRunSummary.total_success = quietRunState.status.total_success ∧
    quietRunSummary.total_errors = quietRunState.status.total_errors :=
  full_sync_success_status Env.quiet (ServiceState.init DB.empty)
    quietRunSummary quietRunState rfl rfl

/-- Claim C8: `sync_specific_exchange` with an unknown exchange code fails
with `ValueError("Invalid exchange: ...")` and returns the service state —
run state and store — unchanged: the rejection happens before the run
starts. -/
theorem invalid_exchange_code_rejected (env : Env) (st : ServiceState) (code : String)
    (h : EXCHANGES.find? (fun p => p.1 = pyUpper code) = none) :
    sync_specific_exchange env st code =
      (.error (.valueError ("Invalid exchange: " ++ pyUpper code ++
        ". Must be one of: NASDAQ, NYSE, AMEX")), st) := by
  unfold sync_specific_exchange
  simp [h]

/-- Witness for claim C8 at the code LSE. -/
theorem invalid_exchange_code_rejected_witness :
    sync_specific_exchange Env.quiet (ServiceState.init DB.empty) "LSE" =
      (.error (.valueError "Invalid exchange: LSE. Must be one of: NASDAQ, NYSE, AMEX"),
       ServiceState.init DB.empty) :=
  invalid_exchange_code_rejected Env.quiet (ServiceState.init DB.empty) "LSE" (by decide)

/-- Claim C9: `get_sync_status` never fails because of the live ticker-count
read — when that read raises, `total_tickers_in_db` degrades to `none`
while every other status field is reported exactly as in the run state. -/
theorem status_count_read_degrades (st : ServiceState) :
    (get_sync_status true st).total_tickers_in_db = none ∧
    get_ticker_count true st.db = .error () ∧
    ∀ b : Bool,
      (get_sync_status b st).is_running = st.status.is_running ∧
      (get_sync_status b st).started_at = st.status.started_at ∧
      (get_sync_status b st).completed_at = st.status.completed_at ∧
      (get_sync_status b st).current_exchange = st.status.current_exchange ∧
      (get_sync_status b st).total_processed = st.status.total_processed ∧
      (get_sync_status b st).total_success = st.status.total_success ∧
      (get_sync_status b st).total_errors = st.status.total_errors ∧
      (get_sync_status b st).error_message = st.status.error_message :=
  ⟨rfl, rfl, fun _ => ⟨rfl, rfl, rfl, rfl, rfl, rfl, rfl, rfl⟩⟩

/-- Claim C10: `sync_specific_exchange` behaves identically on a code and on
its upper-cased form, so lowercase or mixed-case spellings of NASDAQ, NYSE
and AMEX are accepted and sync that exchange rather than being rejected. -/
theorem sync_specific_exchange_case_insensitive :
    (∀ (env : Env) (st : ServiceState) (code : String),
      sync_specific_exchange env st code = sync_specific_exchange env st (pyUpper code)) ∧
    pyUpper "nasdaq" = "NASDAQ" ∧ pyUpper "Nyse" = "NYSE" ∧ pyUpper "amex" = "AMEX" ∧
    (∃ r, (sync_specific_exchange Env.quiet (ServiceState.init DB.empty) "nasdaq").1 = .ok r ∧
      r.exchange = "NASDAQ") := by
  refine ⟨?_, by decide, by decide, by decide, ⟨_, rfl, rfl⟩⟩
  intro env st code
  unfold sync_specific_exchange
  rw [pyUpper_idem]

end FinNews
